import Mathlib

/-!
Verification of the property-price training and inference pipeline
(`src/property/features.py`, `src/property/melb_price_model.py`,
`src/property/api/services.py`) against its specification.

The Python code is shallowly embedded: pandas dataframes become lists of
rows of Python-style scalar values, Python dicts become association
lists with Python update semantics, fallible operations return `Except`,
and the external numeric libraries (pandas medians and modes, the
one-hot encoder, the seeded train/test split) are modelled by
executable Lean functions that follow the documented, deterministic
semantics the code relies on.
-/

namespace PropertyProof

/-- A Python scalar value as it occurs in this code base: an `int`, a
`float` (represented exactly as a rational; binary rounding of the
`float` type is not modelled), a `str`, the `None` object, or a `NaN`
missing value (`float('nan')`, which pandas `isna` detects besides
`None`). -/
inductive PVal where
  | intV (n : ℤ)
  | floatV (q : ℚ)
  | strV (s : String)
  | noneV
  | nanV
deriving DecidableEq, Repr

/-- pandas `isna`: `NaN` and `None` count as missing. -/
def PVal.isNA : PVal → Bool
  | .nanV => true
  | .noneV => true
  | _ => false

/-- Whether a cell value is admissible in a column of numeric dtype
(`int64`/`float64`): an int, a float, or `NaN`. -/
def PVal.isNumericCell : PVal → Bool
  | .intV _ => true
  | .floatV _ => true
  | .nanV => true
  | _ => false

/-- Numeric content of a scalar, when it has one. -/
def PVal.toRat : PVal → Option ℚ
  | .intV n => some (n : ℚ)
  | .floatV q => some q
  | _ => none

/-! ### Python dictionaries

A Python dict is modelled as an association list whose keys are unique
(uniqueness is a hypothesis where a theorem needs it).  `dictInsert`
is `d[k] = v`: it overwrites the binding in place when the key exists,
otherwise appends, matching insertion-order semantics.  `dictUpdate`
is `d.update(u)`. -/

/-- `d[k]` lookup; `none` means the key is absent. -/
def dictLookup {κ α : Type} [DecidableEq κ] : List (κ × α) → κ → Option α
  | [], _ => none
  | p :: d, k => if p.1 = k then some p.2 else dictLookup d k

/-- `d[k] = v`. -/
def dictInsert {κ α : Type} [DecidableEq κ] : List (κ × α) → κ → α → List (κ × α)
  | [], k, v => [(k, v)]
  | p :: d, k, v => if p.1 = k then (k, v) :: d else p :: dictInsert d k v

/-- `d.update(u)`. -/
def dictUpdate {κ α : Type} [DecidableEq κ] (d u : List (κ × α)) : List (κ × α) :=
  u.foldl (fun acc p => dictInsert acc p.1 p.2) d

/-- Embedding of `features.apply_feature_overrides`: copy the base
mapping and update it with the override entries whose value is not
`None`. -/
def apply_feature_overrides (base_features overrides : List (String × PVal)) :
    List (String × PVal) :=
  dictUpdate base_features (overrides.filter (fun p => !(p.2 == PVal.noneV)))

/-! ### Association-list lemmas -/

theorem dictLookup_dictInsert_self {κ α : Type} [DecidableEq κ] (d : List (κ × α)) (k : κ) (v : α) :
    dictLookup (dictInsert d k v) k = some v := by
  induction d with
  | nil => simp [dictInsert, dictLookup]
  | cons p d ih =>
    by_cases hp : p.1 = k
    · simp [dictInsert, dictLookup, hp]
    · simp [dictInsert, dictLookup, hp, ih]

theorem dictLookup_dictInsert_ne {κ α : Type} [DecidableEq κ] (d : List (κ × α)) (k k2 : κ) (v : α)
    (hne : k ≠ k2) : dictLookup (dictInsert d k2 v) k = dictLookup d k := by
  induction d with
  | nil => simp [dictInsert, dictLookup, Ne.symm hne]
  | cons p d ih =>
    by_cases hp : p.1 = k2
    · simp [dictInsert, dictLookup, hp, Ne.symm hne]
    · by_cases hpk : p.1 = k
      · simp [dictInsert, dictLookup, hp, hpk, hne]
      · simp [dictInsert, dictLookup, hp, hpk, ih]

theorem dictLookup_eq_none_of_not_mem {κ α : Type} [DecidableEq κ] (d : List (κ × α)) (k : κ)
    (hk : k ∉ d.map Prod.fst) : dictLookup d k = none := by
  induction d with
  | nil => rfl
  | cons p d ih =>
    simp only [List.map_cons, List.mem_cons] at hk
    push_neg at hk
    simp [dictLookup, Ne.symm hk.1, ih hk.2]

theorem dictLookup_eq_some_of_mem {κ α : Type} [DecidableEq κ] (d : List (κ × α)) (q : κ × α)
    (hnodup : (d.map Prod.fst).Nodup) (hq : q ∈ d) : dictLookup d q.1 = some q.2 := by
  induction d with
  | nil => simp at hq
  | cons p d ih =>
    simp only [List.map_cons, List.nodup_cons] at hnodup
    rcases List.mem_cons.mp hq with h | h
    · subst h; simp [dictLookup]
    · have hne : p.1 ≠ q.1 := by
        intro hcontra
        exact hnodup.1 (hcontra ▸ List.mem_map_of_mem Prod.fst h)
      simp [dictLookup, hne, ih hnodup.2 h]

/-- Updating with a list whose keys avoid `k` leaves the value at `k`
unchanged. -/
theorem dictLookup_dictUpdate_not_mem {κ α : Type} [DecidableEq κ] (u : List (κ × α)) (d : List (κ × α))
    (k : κ) (hk : k ∉ u.map Prod.fst) :
    dictLookup (dictUpdate d u) k = dictLookup d k := by
  induction u generalizing d with
  | nil => rfl
  | cons p u ih =>
    simp only [List.map_cons, List.mem_cons] at hk
    push_neg at hk
    have hstep : dictUpdate d (p :: u) = dictUpdate (dictInsert d p.1 p.2) u := rfl
    rw [hstep, ih _ hk.2, dictLookup_dictInsert_ne _ _ _ _ hk.1]

/-- Lookup after `d.update(u)` for key-unique `u`: the override value
when `u` binds the key, the original value otherwise. -/
theorem dictLookup_dictUpdate {κ α : Type} [DecidableEq κ] (u : List (κ × α)) (d : List (κ × α))
    (k : κ) (hnodup : (u.map Prod.fst).Nodup) :
    dictLookup (dictUpdate d u) k = ((dictLookup u k).or (dictLookup d k)) := by
  induction u generalizing d with
  | nil => simp [dictUpdate, dictLookup]
  | cons p u ih =>
    simp only [List.map_cons, List.nodup_cons] at hnodup
    have hstep : dictUpdate d (p :: u) = dictUpdate (dictInsert d p.1 p.2) u := rfl
    by_cases hk : p.1 = k
    · subst hk
      have hku : dictLookup u p.1 = none :=
        dictLookup_eq_none_of_not_mem u p.1 hnodup.1
      rw [hstep, dictLookup_dictUpdate_not_mem u _ _ hnodup.1, dictLookup_dictInsert_self]
      simp [dictLookup, hku]
    · rw [hstep, ih _ hnodup.2, dictLookup_dictInsert_ne _ _ _ _ (Ne.symm hk)]
      simp [dictLookup, hk]

/-- If every override value is `None`, the filtered update list is
empty and the result is literally the base mapping. -/
theorem apply_feature_overrides_all_none (base overrides : List (String × PVal))
    (hnull : ∀ p ∈ overrides, p.2 = PVal.noneV) :
    apply_feature_overrides base overrides = base := by
  unfold apply_feature_overrides
  have : overrides.filter (fun p => !(p.2 == PVal.noneV)) = [] := by
    rw [List.filter_eq_nil_iff]
    intro p hp
    simp [hnull p hp]
  rw [this]
  rfl

/-- Claim C3: overriding with an all-`None` mapping returns the base
mapping unchanged, and in general a `None`-valued or absent override
entry never replaces a default value. -/
theorem C3_null_overrides_identity (base overrides : List (String × PVal)) (k : String)
    (hnodup : (overrides.map Prod.fst).Nodup) :
    ((∀ p ∈ overrides, p.2 = PVal.noneV) →
      apply_feature_overrides base overrides = base) ∧
    ((dictLookup overrides k = none ∨ dictLookup overrides k = some PVal.noneV) →
      dictLookup (apply_feature_overrides base overrides) k = dictLookup base k) := by
  constructor
  · exact apply_feature_overrides_all_none base overrides
  · intro habsent
    unfold apply_feature_overrides
    apply dictLookup_dictUpdate_not_mem
    intro hmem
    rcases List.mem_map.mp hmem with ⟨q, hq, hq1⟩
    have hqmem := List.mem_filter.mp hq
    have hfound : dictLookup overrides k = some q.2 := by
      have := dictLookup_eq_some_of_mem overrides q hnodup hqmem.1
      rwa [hq1] at this
    rcases habsent with habs | hnone
    · rw [habs] at hfound; exact Option.noConfusion hfound
    · rw [hfound] at hnone
      have hq2 : q.2 = PVal.noneV := by injection hnone
      have := hqmem.2
      simp [hq2] at this

/-- Witness for C3 at a concrete input. -/
theorem C3_null_overrides_identity_witness :
    ([("Rooms", PVal.noneV)].map Prod.fst).Nodup ∧
      (apply_feature_overrides [("Rooms", PVal.floatV 3)] [("Rooms", PVal.noneV)] =
        [("Rooms", PVal.floatV 3)] ∧
      dictLookup (apply_feature_overrides [("Rooms", PVal.floatV 3)] [("Rooms", PVal.noneV)])
        "Rooms" = dictLookup [("Rooms", PVal.floatV 3)] "Rooms") := by
  refine ⟨by decide, ?_⟩
  have h := C3_null_overrides_identity [("Rooms", PVal.floatV 3)] [("Rooms", PVal.noneV)]
    "Rooms" (by decide)
  exact ⟨h.1 (by decide), h.2 (Or.inr (by decide))⟩

/-! ### Dataframes

A pandas dataframe is modelled with ordered column labels, a dtype per
label, and rows keyed by label.  Column labels are unique (`read_csv`
mangles duplicate header names, so this holds for every frame the code
reads); theorems take uniqueness as a hypothesis where they need it. -/

/-- pandas column dtype, fixed once by `read_csv` type inference. -/
inductive Dtype where
  | numeric
  | object
deriving DecidableEq, Repr

/-- A pandas dataframe. -/
structure DataFrame where
  cols : List String
  dtypes : List (String × Dtype)
  rows : List (List (String × PVal))
deriving DecidableEq, Repr

/-- Errors raised by the embedded code. -/
inductive PyErr where
  | keyError
  | valueError
  | indexError
  | fileNotFound
deriving DecidableEq, Repr

instance exceptDecEq {ε α : Type} [DecidableEq ε] [DecidableEq α] :
    DecidableEq (Except ε α) := fun a b =>
  match a, b with
  | .error e, .error f =>
    if h : e = f then isTrue (by rw [h])
    else isFalse (fun hc => h (by injection hc))
  | .ok x, .ok y =>
    if h : x = y then isTrue (by rw [h])
    else isFalse (fun hc => h (by injection hc))
  | .error _, .ok _ => isFalse (fun hc => Except.noConfusion hc)
  | .ok _, .error _ => isFalse (fun hc => Except.noConfusion hc)

/-- The cell of a row at a column label (missing cells read as `NaN`). -/
def rowCell (r : List (String × PVal)) (c : String) : PVal :=
  (dictLookup r c).getD PVal.nanV

/-- The values of one column, top to bottom. -/
def columnVals (df : DataFrame) (c : String) : List PVal :=
  df.rows.map (fun r => rowCell r c)

/-- The dtype of a column label. -/
def dtypeOf (df : DataFrame) (c : String) : Dtype :=
  (dictLookup df.dtypes c).getD Dtype.object

/-- `df.select_dtypes(include=["number"]).columns`, in column order. -/
def numericColumns (df : DataFrame) : List String :=
  df.cols.filter (fun c => dtypeOf df c == Dtype.numeric)

/-- `df.select_dtypes(exclude=["number"]).columns`, in column order. -/
def objectColumns (df : DataFrame) : List String :=
  df.cols.filter (fun c => !(dtypeOf df c == Dtype.numeric))

/-- `df.dropna(subset=[c])`: raises `KeyError` when `c` is not a
column, otherwise keeps the rows whose `c` cell is not missing. -/
def dropnaSubset (df : DataFrame) (c : String) : Except PyErr DataFrame :=
  if c ∈ df.cols then
    .ok { df with rows := df.rows.filter (fun r => !(rowCell r c).isNA) }
  else
    .error PyErr.keyError

/-- `df.drop_duplicates()`: keep the first occurrence of each row. -/
def dedupKeepFirst {α : Type} [DecidableEq α] : List α → List α → List α
  | _, [] => []
  | seen, r :: rest =>
    if r ∈ seen then dedupKeepFirst seen rest
    else r :: dedupKeepFirst (r :: seen) rest

/-- `df.drop(columns=[c])`. -/
def dropColumn (df : DataFrame) (c : String) : DataFrame :=
  { cols := df.cols.erase c
    dtypes := df.dtypes.filter (fun p => !(p.1 == c))
    rows := df.rows.map (fun r => r.filter (fun p => !(p.1 == c))) }

/-- Embedding of `melb_price_model.load_dataset` applied to an already
parsed frame (`pd.read_csv` delivers the frame): drop the rows with a
missing target, then drop exact duplicate rows. -/
def load_dataset (df : DataFrame) (target_column : String) : Except PyErr DataFrame := do
  let df1 ← dropnaSubset df target_column
  .ok { df1 with rows := dedupKeepFirst [] df1.rows }

/-- pandas `Series.median()` with default `skipna`: the middle element
of the sorted non-missing values, the mean of the two middle ones for
an even count, `NaN` for an empty series; always a float. -/
def pdMedian (vs : List PVal) : PVal :=
  let qs := List.insertionSort (· ≤ ·) (vs.filterMap PVal.toRat)
  if qs.isEmpty then PVal.nanV
  else if qs.length % 2 = 1 then PVal.floatV (qs.getD (qs.length / 2) 0)
  else PVal.floatV ((qs.getD (qs.length / 2 - 1) 0 + qs.getD (qs.length / 2) 0) / 2)

/-- Rank used to order scalars of distinct kinds. -/
def pvalRank : PVal → ℕ
  | .intV _ => 0
  | .floatV _ => 0
  | .strV _ => 1
  | .noneV => 2
  | .nanV => 3

/-- A total order on scalars: pandas `Series.mode` returns the modal
values sorted ascending, so `iloc[0]` takes the least one; numbers
compare numerically, strings lexicographically, distinct kinds by
rank. -/
def pvalLE (a b : PVal) : Bool :=
  if pvalRank a = pvalRank b then
    match a, b with
    | .strV s, .strV t => s ≤ t
    | _, _ => (a.toRat.getD 0) ≤ (b.toRat.getD 0)
  else pvalRank a < pvalRank b

/-- Fold a minimum over a list with a comparison function. -/
def foldMin (le : PVal → PVal → Bool) : PVal → List PVal → PVal
  | acc, [] => acc
  | acc, v :: rest => foldMin le (if le v acc then v else acc) rest

/-- The highest multiplicity occurring in a list of scalars. -/
def maxCountOf (xs : List PVal) : ℕ :=
  (xs.map (fun v => xs.count v)).foldl max 0

/-- First modal value of a list: among the values of highest
multiplicity, the least in the `pvalLE` order (`NaN` when empty). -/
def modeFirstCore (xs : List PVal) : PVal :=
  match xs.filter (fun v => xs.count v == maxCountOf xs) with
  | [] => PVal.nanV
  | c :: cs => foldMin pvalLE c cs

/-- pandas `Series.mode(dropna=True)` followed by taking the first
(least) modal value: the most frequent non-missing value, ties broken
downward in the `pvalLE` order; `NaN` when no value remains. -/
def pdModeFirst (vs : List PVal) : PVal :=
  modeFirstCore (vs.filter (fun v => !v.isNA))

/-- The frame `load_feature_defaults` computes its statistics on: the
target-non-missing rows with the target column dropped. -/
def defaultsFrame (df : DataFrame) (target_column : String) : DataFrame :=
  dropColumn
    { df with rows := df.rows.filter (fun r => !(rowCell r target_column).isNA) }
    target_column

/-- `feature_frame[numeric_cols].median(numeric_only=True).to_dict()`:
the numeric-column medians, keyed by column, in column order. -/
def numericDefaults (df : DataFrame) (target_column : String) : List (String × PVal) :=
  (numericColumns (defaultsFrame df target_column)).map
    (fun c => (c, pdMedian (columnVals (defaultsFrame df target_column) c)))

/-- `feature_frame[categorical_cols].mode(dropna=True).iloc[0].to_dict()`:
the object-column first modes, keyed by column, in column order. -/
def categoricalDefaults (df : DataFrame) (target_column : String) : List (String × PVal) :=
  (objectColumns (defaultsFrame df target_column)).map
    (fun c => (c, pdModeFirst (columnVals (defaultsFrame df target_column) c)))

/-- The defaults mapping after the numeric update (the source guards
the update with `len(numeric_cols) > 0`). -/
def numericPart (df : DataFrame) (target_column : String) : List (String × PVal) :=
  if (numericColumns (defaultsFrame df target_column)).isEmpty then []
  else dictUpdate [] (numericDefaults df target_column)

/-- Embedding of `features.load_feature_defaults` applied to an already
parsed frame: check the target column exists, drop rows with a missing
target, fail on an empty result, drop the target column, then collect
the median of every numeric column and the first mode of every other
column into one mapping.  (When every non-numeric column is entirely
missing, `mode().iloc[0]` raises `IndexError` on the empty mode frame.) -/
def load_feature_defaults (df : DataFrame) (target_column : String) :
    Except PyErr (List (String × PVal)) :=
  if target_column ∉ df.cols then .error PyErr.valueError
  else if (df.rows.filter (fun r => !(rowCell r target_column).isNA)).isEmpty then
    .error PyErr.valueError
  else if (objectColumns (defaultsFrame df target_column)).isEmpty then
    .ok (numericPart df target_column)
  else if (objectColumns (defaultsFrame df target_column)).all
      (fun c => ((columnVals (defaultsFrame df target_column) c).filter
        (fun v => !v.isNA)).isEmpty) then
    .error PyErr.indexError
  else
    .ok (dictUpdate (numericPart df target_column) (categoricalDefaults df target_column))

/-! ### Mode and median lemmas -/

theorem foldMin_mem (le : PVal → PVal → Bool) (acc : PVal) (l : List PVal) :
    foldMin le acc l = acc ∨ foldMin le acc l ∈ l := by
  induction l generalizing acc with
  | nil => exact Or.inl rfl
  | cons v rest ih =>
    simp only [foldMin]
    rcases ih (if le v acc then v else acc) with h | h
    · rw [h]
      by_cases hle : le v acc
      · simp only [hle, if_true]
        exact Or.inr (List.mem_cons_self v rest)
      · simp only [hle, if_false]
        exact Or.inl rfl
    · exact Or.inr (List.mem_cons_of_mem v h)

theorem init_le_foldl_max (l : List ℕ) (init : ℕ) : init ≤ l.foldl max init := by
  induction l generalizing init with
  | nil => exact le_refl _
  | cons x rest ih => exact le_trans (le_max_left init x) (ih (max init x))

theorem le_foldl_max (l : List ℕ) (a init : ℕ) (ha : a ∈ l) : a ≤ l.foldl max init := by
  induction l generalizing init with
  | nil => simp at ha
  | cons x rest ih =>
    simp only [List.foldl_cons]
    rcases List.mem_cons.mp ha with h | h
    · subst h
      exact le_trans (le_max_right init a) (init_le_foldl_max rest (max init a))
    · exact ih (max init x) h

theorem foldl_max_attained (l : List ℕ) (init : ℕ) :
    l.foldl max init = init ∨ l.foldl max init ∈ l := by
  induction l generalizing init with
  | nil => exact Or.inl rfl
  | cons x rest ih =>
    simp only [List.foldl_cons]
    rcases ih (max init x) with h | h
    · rw [h]
      rcases max_choice init x with hm | hm
      · exact Or.inl hm
      · exact Or.inr (by rw [hm]; exact List.mem_cons_self x rest)
    · exact Or.inr (List.mem_cons_of_mem x h)

/-- The first modal value of a nonempty list is an element of maximal
multiplicity. -/
theorem modeFirstCore_most_frequent (xs : List PVal) (hne : xs ≠ []) :
    modeFirstCore xs ∈ xs ∧ ∀ w ∈ xs, xs.count w ≤ xs.count (modeFirstCore xs) := by
  obtain ⟨x, rest, hxx⟩ : ∃ a l, xs = a :: l := by
    cases xs with
    | nil => exact absurd rfl hne
    | cons a l => exact ⟨a, l, rfl⟩
  have hxmem : x ∈ xs := by rw [hxx]; exact List.mem_cons_self x rest
  have hcx : xs.count x ≤ maxCountOf xs :=
    le_foldl_max _ _ _ (List.mem_map_of_mem (fun v => xs.count v) hxmem)
  have hxpos : 0 < xs.count x := List.count_pos_iff.mpr hxmem
  have hattain : ∃ v ∈ xs, xs.count v = maxCountOf xs := by
    rcases foldl_max_attained (xs.map (fun v => xs.count v)) 0 with h | h
    · exfalso
      have h0 : maxCountOf xs = 0 := h
      omega
    · rcases List.mem_map.mp h with ⟨v, hv, hveq⟩
      exact ⟨v, hv, hveq⟩
  obtain ⟨c, cs, hc⟩ :
      ∃ c cs, xs.filter (fun v => xs.count v == maxCountOf xs) = c :: cs := by
    rcases hattain with ⟨v, hv, hveq⟩
    rcases hlist : xs.filter (fun v => xs.count v == maxCountOf xs) with _ | ⟨c, cs⟩
    · exfalso
      have hvmem : v ∈ xs.filter (fun v => xs.count v == maxCountOf xs) :=
        List.mem_filter.mpr ⟨hv, by simp [hveq]⟩
      rw [hlist] at hvmem
      simp at hvmem
    · exact ⟨c, cs, rfl⟩
  have hres : modeFirstCore xs = foldMin pvalLE c cs := by
    unfold modeFirstCore
    rw [hc]
  have hrmem : modeFirstCore xs ∈ xs.filter (fun v => xs.count v == maxCountOf xs) := by
    rw [hres, hc]
    rcases foldMin_mem pvalLE c cs with h | h
    · rw [h]
      exact List.mem_cons_self c cs
    · exact List.mem_cons_of_mem c h
  have hfilt := List.mem_filter.mp hrmem
  refine ⟨hfilt.1, ?_⟩
  intro w hw
  have hcnt : xs.count (modeFirstCore xs) = maxCountOf xs := by simpa using hfilt.2
  rw [hcnt]
  exact le_foldl_max (xs.map (fun v => xs.count v)) (xs.count w) 0
    (List.mem_map_of_mem (fun v => xs.count v) hw)

/-- The first modal value of a series with a non-missing entry is a
most frequent non-missing value. -/
theorem pdModeFirst_most_frequent (vs : List PVal)
    (hne : vs.filter (fun v => !v.isNA) ≠ []) :
    pdModeFirst vs ∈ vs.filter (fun v => !v.isNA) ∧
    ∀ w ∈ vs.filter (fun v => !v.isNA),
      (vs.filter (fun v => !v.isNA)).count w ≤
        (vs.filter (fun v => !v.isNA)).count (pdModeFirst vs) :=
  modeFirstCore_most_frequent (vs.filter (fun v => !v.isNA)) hne

/-! ### Lookup stability under column removal -/

theorem dictLookup_filter_ne {κ α : Type} [DecidableEq κ] (r : List (κ × α)) (t c : κ) (hne : c ≠ t) :
    dictLookup (r.filter (fun p => !(p.1 == t))) c = dictLookup r c := by
  induction r with
  | nil => rfl
  | cons p r ih =>
    by_cases hp : p.1 = t
    · simp [dictLookup, List.filter_cons, hp, Ne.symm hne, ih]
    · simp only [List.filter_cons]
      by_cases hpc : p.1 = c
      · simp [dictLookup, hp, hpc, hne]
      · simp [dictLookup, hp, hpc, ih]

theorem dictLookup_map_self {α : Type} (l : List String) (f : String → α) (k : String) :
    dictLookup (l.map (fun c => (c, f c))) k = if k ∈ l then some (f k) else none := by
  induction l with
  | nil => rfl
  | cons c l ih =>
    by_cases hc : c = k
    · subst hc; simp [dictLookup]
    · simp [dictLookup, hc, ih, Ne.symm hc]

/-- Claim C4: with the target column absent, `load_dataset` raises
(`dropna(subset=...)` raises `KeyError`) and `load_feature_defaults`
raises a `ValueError`; `load_feature_defaults` also raises a
`ValueError` when no row survives the missing-target drop. -/
theorem C4_missing_target_errors (df : DataFrame) (target : String) :
    (target ∉ df.cols →
      load_dataset df target = .error PyErr.keyError ∧
      load_feature_defaults df target = .error PyErr.valueError) ∧
    (target ∈ df.cols →
      (df.rows.filter (fun r => !(rowCell r target).isNA)).isEmpty = true →
      load_feature_defaults df target = .error PyErr.valueError) := by
  constructor
  · intro habs
    constructor
    · have hdrop : dropnaSubset df target = .error PyErr.keyError := by
        simp [dropnaSubset, habs]
      simp only [load_dataset, hdrop]
      rfl
    · simp [load_feature_defaults, habs]
  · intro hmem hempty
    simp [load_feature_defaults, hmem, hempty]

/-- Witness for C4 at a concrete input: a one-column frame without the
target, and a frame whose only row has a missing target. -/
theorem C4_missing_target_errors_witness :
    ("Price" ∉ (DataFrame.mk ["Rooms"] [("Rooms", Dtype.numeric)]
        [[("Rooms", PVal.intV 3)]]).cols ∧
      load_dataset (DataFrame.mk ["Rooms"] [("Rooms", Dtype.numeric)]
        [[("Rooms", PVal.intV 3)]]) "Price" = .error PyErr.keyError ∧
      load_feature_defaults (DataFrame.mk ["Rooms"] [("Rooms", Dtype.numeric)]
        [[("Rooms", PVal.intV 3)]]) "Price" = .error PyErr.valueError) ∧
    (load_feature_defaults (DataFrame.mk ["Price"] [("Price", Dtype.numeric)]
        [[("Price", PVal.nanV)]]) "Price" = .error PyErr.valueError) := by
  have h1 := (C4_missing_target_errors (DataFrame.mk ["Rooms"] [("Rooms", Dtype.numeric)]
    [[("Rooms", PVal.intV 3)]]) "Price").1 (by decide)
  have h2 := (C4_missing_target_errors (DataFrame.mk ["Price"] [("Price", Dtype.numeric)]
    [[("Price", PVal.nanV)]]) "Price").2 (by decide) (by decide)
  exact ⟨⟨by decide, h1.1, h1.2⟩, h2⟩

/-! ### The defaults frame seen through column lookups -/

theorem cols_defaultsFrame (df : DataFrame) (target : String) :
    (defaultsFrame df target).cols = df.cols.erase target := rfl

theorem dtypeOf_defaultsFrame (df : DataFrame) (target c : String) (hct : c ≠ target) :
    dtypeOf (defaultsFrame df target) c = dtypeOf df c := by
  unfold dtypeOf defaultsFrame dropColumn
  rw [dictLookup_filter_ne _ _ _ hct]

theorem columnVals_defaultsFrame (df : DataFrame) (target c : String) (hct : c ≠ target) :
    columnVals (defaultsFrame df target) c =
      (df.rows.filter (fun r => !(rowCell r target).isNA)).map (fun r => rowCell r c) := by
  unfold columnVals defaultsFrame dropColumn
  simp only [List.map_map]
  apply List.map_congr_left
  intro r _
  simp only [Function.comp]
  unfold rowCell
  rw [dictLookup_filter_ne _ _ _ hct]

theorem mem_numericColumns_defaultsFrame (df : DataFrame) (target c : String)
    (hnodup : df.cols.Nodup) :
    c ∈ numericColumns (defaultsFrame df target) ↔
      c ≠ target ∧ c ∈ df.cols ∧ dtypeOf df c = Dtype.numeric := by
  unfold numericColumns
  rw [List.mem_filter, cols_defaultsFrame, hnodup.mem_erase_iff]
  constructor
  · rintro ⟨⟨hct, hcm⟩, hd⟩
    refine ⟨hct, hcm, ?_⟩
    rw [← dtypeOf_defaultsFrame df target c hct]
    simpa using hd
  · rintro ⟨hct, hcm, hd⟩
    refine ⟨⟨hct, hcm⟩, ?_⟩
    rw [dtypeOf_defaultsFrame df target c hct]
    simp [hd]

theorem mem_objectColumns_defaultsFrame (df : DataFrame) (target c : String)
    (hnodup : df.cols.Nodup) :
    c ∈ objectColumns (defaultsFrame df target) ↔
      c ≠ target ∧ c ∈ df.cols ∧ dtypeOf df c ≠ Dtype.numeric := by
  unfold objectColumns
  rw [List.mem_filter, cols_defaultsFrame, hnodup.mem_erase_iff]
  constructor
  · rintro ⟨⟨hct, hcm⟩, hd⟩
    refine ⟨hct, hcm, ?_⟩
    rw [← dtypeOf_defaultsFrame df target c hct]
    simpa using hd
  · rintro ⟨hct, hcm, hd⟩
    refine ⟨⟨hct, hcm⟩, ?_⟩
    rw [dtypeOf_defaultsFrame df target c hct]
    simpa using hd

theorem nodup_cols_defaultsFrame (df : DataFrame) (target : String)
    (hnodup : df.cols.Nodup) : (defaultsFrame df target).cols.Nodup := by
  rw [cols_defaultsFrame]
  exact hnodup.erase target

theorem keys_map_pair {α : Type} (l : List String) (f : String → α) :
    ((l.map (fun c => (c, f c))).map Prod.fst) = l := by
  induction l with
  | nil => rfl
  | cons c l ih => simp [ih]

theorem dictLookup_numericPart (df : DataFrame) (target k : String)
    (hnodup : df.cols.Nodup) :
    dictLookup (numericPart df target) k =
      if k ∈ numericColumns (defaultsFrame df target) then
        some (pdMedian (columnVals (defaultsFrame df target) k))
      else none := by
  unfold numericPart
  by_cases hempty : (numericColumns (defaultsFrame df target)).isEmpty
  · rw [if_pos hempty]
    have : numericColumns (defaultsFrame df target) = [] := List.isEmpty_iff.mp hempty
    simp [dictLookup, this]
  · rw [if_neg hempty]
    have hkeys : ((numericDefaults df target).map Prod.fst).Nodup := by
      unfold numericDefaults
      rw [keys_map_pair]
      exact (nodup_cols_defaultsFrame df target hnodup).filter _
    rw [dictLookup_dictUpdate _ _ _ hkeys]
    unfold numericDefaults
    rw [dictLookup_map_self]
    by_cases hk : k ∈ numericColumns (defaultsFrame df target)
    · simp [hk]
    · simp [hk, dictLookup]

/-- Claim C2, amended: whenever `load_feature_defaults` returns a
mapping, it binds each numeric feature column to its median over the
target-non-missing rows and each other feature column to its most
frequent value there, and never binds the target column itself.  (The
claim's original hypotheses — target present and at least one
surviving row — do not suffice for a mapping to be returned: when
every object-dtype feature column is entirely missing among the
surviving rows, `mode(dropna=True).iloc[0]` raises an `IndexError`;
see the counterexample below.) -/
theorem C2_feature_defaults (df : DataFrame) (target : String)
    (defaults : List (String × PVal))
    (hnodup : df.cols.Nodup)
    (hok : load_feature_defaults df target = .ok defaults) :
    dictLookup defaults target = none ∧
    (∀ c ∈ df.cols, c ≠ target → dtypeOf df c = Dtype.numeric →
      dictLookup defaults c =
        some (pdMedian ((df.rows.filter (fun r => !(rowCell r target).isNA)).map
          (fun r => rowCell r c)))) ∧
    (∀ c ∈ df.cols, c ≠ target → dtypeOf df c ≠ Dtype.numeric →
      dictLookup defaults c =
        some (pdModeFirst ((df.rows.filter (fun r => !(rowCell r target).isNA)).map
          (fun r => rowCell r c))) ∧
      (((df.rows.filter (fun r => !(rowCell r target).isNA)).map
          (fun r => rowCell r c)).filter (fun v => !v.isNA) ≠ [] →
        ∀ w ∈ ((df.rows.filter (fun r => !(rowCell r target).isNA)).map
            (fun r => rowCell r c)).filter (fun v => !v.isNA),
          (((df.rows.filter (fun r => !(rowCell r target).isNA)).map
              (fun r => rowCell r c)).filter (fun v => !v.isNA)).count w ≤
            (((df.rows.filter (fun r => !(rowCell r target).isNA)).map
              (fun r => rowCell r c)).filter (fun v => !v.isNA)).count
              (pdModeFirst ((df.rows.filter (fun r => !(rowCell r target).isNA)).map
                (fun r => rowCell r c))))) := by
  have htgtnot : target ∉ (defaultsFrame df target).cols := by
    rw [cols_defaultsFrame]
    exact hnodup.not_mem_erase
  have hcatkeys : ((categoricalDefaults df target).map Prod.fst).Nodup := by
    unfold categoricalDefaults
    rw [keys_map_pair]
    exact (nodup_cols_defaultsFrame df target hnodup).filter _
  -- characterize the final lookup in both success branches at once
  have hlook : ∀ k, dictLookup defaults k =
      if k ∈ objectColumns (defaultsFrame df target) then
        some (pdModeFirst (columnVals (defaultsFrame df target) k))
      else if k ∈ numericColumns (defaultsFrame df target) then
        some (pdMedian (columnVals (defaultsFrame df target) k))
      else none := by
    intro k
    unfold load_feature_defaults at hok
    split_ifs at hok with h1 h2 h3 h4
    · have hdef : numericPart df target = defaults := Except.ok.inj hok
      rw [← hdef, dictLookup_numericPart df target k hnodup]
      have hcat : objectColumns (defaultsFrame df target) = [] := List.isEmpty_iff.mp h3
      simp [hcat]
    · have hdef : dictUpdate (numericPart df target) (categoricalDefaults df target) =
          defaults := Except.ok.inj hok
      rw [← hdef, dictLookup_dictUpdate _ _ _ hcatkeys]
      unfold categoricalDefaults
      rw [dictLookup_map_self, dictLookup_numericPart df target k hnodup]
      by_cases hk : k ∈ objectColumns (defaultsFrame df target)
      · simp [hk]
      · simp [hk]
  refine ⟨?_, ?_, ?_⟩
  · rw [hlook target]
    have h1 : target ∉ objectColumns (defaultsFrame df target) := by
      intro h
      exact htgtnot (List.mem_filter.mp h).1
    have h2 : target ∉ numericColumns (defaultsFrame df target) := by
      intro h
      exact htgtnot (List.mem_filter.mp h).1
    simp [h1, h2]
  · intro c hcm hct hd
    have hnum : c ∈ numericColumns (defaultsFrame df target) :=
      (mem_numericColumns_defaultsFrame df target c hnodup).mpr ⟨hct, hcm, hd⟩
    have hcat : c ∉ objectColumns (defaultsFrame df target) := by
      intro h
      exact ((mem_objectColumns_defaultsFrame df target c hnodup).mp h).2.2 hd
    rw [hlook c, if_neg hcat, if_pos hnum, columnVals_defaultsFrame df target c hct]
  · intro c hcm hct hd
    have hcat : c ∈ objectColumns (defaultsFrame df target) :=
      (mem_objectColumns_defaultsFrame df target c hnodup).mpr ⟨hct, hcm, hd⟩
    constructor
    · rw [hlook c, if_pos hcat, columnVals_defaultsFrame df target c hct]
    · intro hne
      exact (pdModeFirst_most_frequent _ hne).2

/-- Witness for C2: the spec scenario, dataset `[Price, Rooms, Suburb]`
with rows `[(500000, 3, A), (600000, 4, B), (NaN, 5, C)]`: the `NaN`
row is dropped, `Rooms` gets median `3.5`, `Suburb` gets mode `A`. -/
theorem C2_feature_defaults_witness :
    (["Price", "Rooms", "Suburb"] : List String).Nodup ∧
    load_feature_defaults
      (DataFrame.mk ["Price", "Rooms", "Suburb"]
        [("Price", Dtype.numeric), ("Rooms", Dtype.numeric), ("Suburb", Dtype.object)]
        [[("Price", PVal.floatV 500000), ("Rooms", PVal.intV 3), ("Suburb", PVal.strV "A")],
         [("Price", PVal.floatV 600000), ("Rooms", PVal.intV 4), ("Suburb", PVal.strV "B")],
         [("Price", PVal.nanV), ("Rooms", PVal.intV 5), ("Suburb", PVal.strV "C")]])
      "Price" = Except.ok [("Rooms", PVal.floatV (7 / 2)), ("Suburb", PVal.strV "A")] ∧
    (DataFrame.mk ["Price", "Rooms", "Suburb"]
        [("Price", Dtype.numeric), ("Rooms", Dtype.numeric), ("Suburb", Dtype.object)]
        [[("Price", PVal.floatV 500000), ("Rooms", PVal.intV 3), ("Suburb", PVal.strV "A")],
         [("Price", PVal.floatV 600000), ("Rooms", PVal.intV 4), ("Suburb", PVal.strV "B")],
         [("Price", PVal.nanV), ("Rooms", PVal.intV 5), ("Suburb", PVal.strV "C")]]).cols.Nodup ∧
    dictLookup [("Rooms", PVal.floatV (7 / 2)), ("Suburb", PVal.strV "A")] "Price" = none := by
  refine ⟨by decide, by with_unfolding_all decide, by decide, ?_⟩
  exact (C2_feature_defaults
    (DataFrame.mk ["Price", "Rooms", "Suburb"]
      [("Price", Dtype.numeric), ("Rooms", Dtype.numeric), ("Suburb", Dtype.object)]
      [[("Price", PVal.floatV 500000), ("Rooms", PVal.intV 3), ("Suburb", PVal.strV "A")],
       [("Price", PVal.floatV 600000), ("Rooms", PVal.intV 4), ("Suburb", PVal.strV "B")],
       [("Price", PVal.nanV), ("Rooms", PVal.intV 5), ("Suburb", PVal.strV "C")]])
    "Price" [("Rooms", PVal.floatV (7 / 2)), ("Suburb", PVal.strV "A")]
    (by decide) (by with_unfolding_all decide)).1

/-- Counterexample to claim C2 as frozen: the frame `[Price, Suburb]`
with rows `(1.0, NaN)` and `(NaN, "X")` has the target present and one
row surviving the missing-target drop — the claim's hypotheses — yet
`load_feature_defaults` raises an `IndexError` instead of returning a
defaults mapping: `Suburb` carries object dtype (from the string in
the dropped row) and is entirely missing among the surviving rows, so
`mode(dropna=True)` produces a zero-row frame and `.iloc[0]` raises. -/
theorem C2_feature_defaults_counterexample :
    "Price" ∈ (DataFrame.mk ["Price", "Suburb"]
      [("Price", Dtype.numeric), ("Suburb", Dtype.object)]
      [[("Price", PVal.floatV 1), ("Suburb", PVal.nanV)],
       [("Price", PVal.nanV), ("Suburb", PVal.strV "X")]]).cols ∧
    ((DataFrame.mk ["Price", "Suburb"]
      [("Price", Dtype.numeric), ("Suburb", Dtype.object)]
      [[("Price", PVal.floatV 1), ("Suburb", PVal.nanV)],
       [("Price", PVal.nanV), ("Suburb", PVal.strV "X")]]).rows.filter
        (fun r => !(rowCell r "Price").isNA)).isEmpty = false ∧
    load_feature_defaults (DataFrame.mk ["Price", "Suburb"]
      [("Price", Dtype.numeric), ("Suburb", Dtype.object)]
      [[("Price", PVal.floatV 1), ("Suburb", PVal.nanV)],
       [("Price", PVal.nanV), ("Suburb", PVal.strV "X")]]) "Price" =
      .error PyErr.indexError := by
  exact ⟨by decide, by decide, by with_unfolding_all decide⟩

/-! ### The training orchestrator (`train_gradient_boosting`)

The scikit-learn internals (preprocessor fitting and the boosted-tree
regressor) are abstracted as a `Backend`: a deterministic function of
the configured seed and the training data, which is exactly what the
library guarantees once `random_state` is fixed.  The seeded
`train_test_split` shuffle is modelled by a concrete pseudo-random
permutation of the row indices: like numpy's generator it depends on
nothing besides the seed and the row count. -/

/-- A feature row, as handed to the pipeline. -/
abbrev Row := List (String × PVal)

/-- Embedding of the `TrainingConfig` dataclass, with the dataset
already read from `data_path`. -/
structure TrainingConfig where
  data : DataFrame
  target_column : String
  test_size : ℚ
  random_state : ℕ
  model_output_path : Option String
  use_hist_gradient_boosting : Bool
  n_threads : Option ℤ

/-- The metrics dictionary of `train_gradient_boosting`; `rmse` is
`Real.sqrt mse` (`mse ** 0.5`) and is determined by `mse`. -/
structure Metrics where
  r2_score : ℚ
  mae : ℚ
  mse : ℚ
deriving DecidableEq, Repr

/-- A fitted pipeline: predicts one value from one feature row, and
may raise like `Pipeline.predict`. -/
abbrev PipelineFun := Row → Except PyErr ℚ

/-- The abstract deterministic learning backend standing in for the
fitted scikit-learn pipeline (preprocessor plus regressor): `fit`
consumes the seed and the training rows and targets and either raises
or returns the fitted prediction function. -/
structure Backend where
  fit : ℕ → List Row → List ℚ → Except PyErr PipelineFun

/-- Embedding of the `TrainingResult` dataclass. -/
structure TrainingResult where
  pipeline : PipelineFun
  metrics : Metrics
  feature_names : List String
  model_path : Option String

/-- A 64-bit linear congruential step, standing in for numpy's seeded
generator: any deterministic function of the seed works here. -/
def lcg (s : ℕ) : ℕ :=
  (6364136223846793005 * s + 1442695040888963407) % (2 ^ 64)

/-- The seeded pseudo-random permutation `train_test_split` applies to
the rows: indices ordered by their seeded hash, ties by index. -/
def shuffleRows {α : Type} (seed : ℕ) (l : List α) : List α :=
  ((List.insertionSort
      (fun a b : ℕ × ℕ => a.1 < b.1 ∨ (a.1 = b.1 ∧ a.2 ≤ b.2))
      ((List.range l.length).map (fun i => (lcg (seed + i), i)))).map Prod.snd).filterMap
    (fun i => l.get? i)

/-- `sklearn.model_selection.train_test_split(X, y, test_size=...,
random_state=seed)` on zipped (features, target) pairs: the seeded
shuffle, then `ceil(test_size * n)` rows held out for the test set and
the remainder for training. -/
def train_test_split {α : Type} (seed : ℕ) (test_size : ℚ) (l : List α) :
    List α × List α :=
  let shuffled := shuffleRows seed l
  let nTest := Nat.ceil (test_size * (l.length : ℚ))
  (shuffled.drop nTest, shuffled.take nTest)

/-- `sklearn.metrics.mean_squared_error` (the mean over ℚ; division by
a zero length is the Lean zero convention, unreachable for nonempty
test sets). -/
def mean_squared_error (yTrue yPred : List ℚ) : ℚ :=
  ((yTrue.zip yPred).map (fun p => (p.1 - p.2) * (p.1 - p.2))).foldl (· + ·) 0 /
    (yTrue.length : ℚ)

/-- `sklearn.metrics.mean_absolute_error`. -/
def mean_absolute_error (yTrue yPred : List ℚ) : ℚ :=
  ((yTrue.zip yPred).map (fun p => |p.1 - p.2|)).foldl (· + ·) 0 / (yTrue.length : ℚ)

/-- `sklearn.metrics.r2_score`: one minus the ratio of residual to
total sum of squares. -/
def r2_score (yTrue yPred : List ℚ) : ℚ :=
  let meanY := yTrue.foldl (· + ·) 0 / (yTrue.length : ℚ)
  let ssRes := ((yTrue.zip yPred).map (fun p => (p.1 - p.2) * (p.1 - p.2))).foldl (· + ·) 0
  let ssTot := (yTrue.map (fun y => (y - meanY) * (y - meanY))).foldl (· + ·) 0
  1 - ssRes / ssTot

/-- The feature/target pairs `train_gradient_boosting` builds from the
cleaned frame: `feature_frame = df.drop(columns=[target])` and
`target = df[target]`, row-aligned. -/
def featureTargetPairs (df : DataFrame) (target_column : String) : List (Row × PVal) :=
  df.rows.map (fun r =>
    (r.filter (fun p => !(p.1 == target_column)), rowCell r target_column))

/-- The train/test pairs `train_gradient_boosting` fits and evaluates
on: the cleaned dataset, zipped into feature/target pairs and split by
the seeded shuffle.  First component trains, second evaluates. -/
def trainingSplit (cfg : TrainingConfig) :
    Except PyErr (List (Row × PVal) × List (Row × PVal)) := do
  let df ← load_dataset cfg.data cfg.target_column
  .ok (train_test_split cfg.random_state cfg.test_size
    (featureTargetPairs df cfg.target_column))

/-- The failure-prone part of `train_gradient_boosting`, up to and
including metric computation: load and clean the dataset, build the
pipeline (`_build_preprocessor` raises when the feature frame has no
column at all), split with the seeded shuffle, fit, predict the test
rows, and compute the metrics.  `_configure_threading` only mutates
process-wide environment variables and does not touch the result. -/
def trainCore (backend : Backend) (cfg : TrainingConfig) :
    Except PyErr (PipelineFun × Metrics × List String) := do
  let df ← load_dataset cfg.data cfg.target_column
  let ff := dropColumn df cfg.target_column
  if (numericColumns ff).isEmpty ∧ (objectColumns ff).isEmpty then
    .error PyErr.valueError
  else
    let (trainPairs, testPairs) :=
      train_test_split cfg.random_state cfg.test_size
        (featureTargetPairs df cfg.target_column)
    let predict ← backend.fit cfg.random_state (trainPairs.map Prod.fst)
      (trainPairs.map (fun p => (p.2.toRat).getD 0))
    let predictions ← testPairs.mapM (fun p => predict p.1)
    let yTest := testPairs.map (fun p => (p.2.toRat).getD 0)
    .ok (predict,
      { r2_score := r2_score yTest predictions
        mae := mean_absolute_error yTest predictions
        mse := mean_squared_error yTest predictions },
      ff.cols)

/-- The store of persisted model artifacts, path to fitted pipeline
(`joblib.dump`/`joblib.load` round-trip values verbatim). -/
abbrev FileSystem := List (String × PipelineFun)

/-- Embedding of `melb_price_model.train_gradient_boosting`: run the
failure-prone part, and only when it has fully succeeded persist the
fitted pipeline at the configured output path.  The returned file
system is unchanged on any error. -/
def train_gradient_boosting (backend : Backend) (fs : FileSystem)
    (cfg : TrainingConfig) : FileSystem × Except PyErr TrainingResult :=
  match trainCore backend cfg with
  | .error e => (fs, .error e)
  | .ok (predict, metrics, featureNames) =>
    match cfg.model_output_path with
    | none => (fs, .ok ⟨predict, metrics, featureNames, none⟩)
    | some path =>
      (dictInsert fs path predict, .ok ⟨predict, metrics, featureNames, some path⟩)

/-- `joblib.dump(pipeline, path)`. -/
def joblibDump (fs : FileSystem) (path : String) (p : PipelineFun) : FileSystem :=
  dictInsert fs path p

/-- Embedding of `melb_price_model.load_trained_pipeline`:
`joblib.load` returns the stored artifact verbatim, or raises when the
path does not exist. -/
def load_trained_pipeline (fs : FileSystem) (model_path : String) :
    Except PyErr PipelineFun :=
  match dictLookup fs model_path with
  | some p => .ok p
  | none => .error PyErr.fileNotFound

/-- Embedding of `melb_price_model.predict_price`: present the feature
row as a one-row frame to the pipeline and return the single
prediction. -/
def predict_price (pipeline : PipelineFun) (feature_row : Row) : Except PyErr ℚ :=
  pipeline feature_row

/-! ### Determinism, split hygiene, and persistence ordering -/

/-- The outcome component of a training run does not depend on the
artifact store it starts from. -/
theorem train_outcome_independent_of_fs (backend : Backend) (fs1 fs2 : FileSystem)
    (cfg : TrainingConfig) :
    (train_gradient_boosting backend fs1 cfg).2 =
      (train_gradient_boosting backend fs2 cfg).2 := by
  unfold train_gradient_boosting
  cases trainCore backend cfg with
  | error e => rfl
  | ok x =>
    obtain ⟨p, m, f⟩ := x
    cases cfg.model_output_path with
    | none => rfl
    | some path => rfl

/-- Claim C1: two runs of `train_gradient_boosting` with identical
configurations produce identical metric values (`r2_score`, `mae`, and
`rmse = Real.sqrt mse`): the embedded run is a pure function of the
configuration, with the train/test shuffle and the regressor both
derived from the configured seed, so no other source of variation
exists. -/
theorem C1_training_deterministic (backend : Backend) (fs1 fs2 : FileSystem)
    (cfg1 cfg2 : TrainingConfig) (t1 t2 : TrainingResult)
    (hcfg : cfg1 = cfg2)
    (h1 : (train_gradient_boosting backend fs1 cfg1).2 = .ok t1)
    (h2 : (train_gradient_boosting backend fs2 cfg2).2 = .ok t2) :
    t1.metrics = t2.metrics ∧
      Real.sqrt (t1.metrics.mse : ℝ) = Real.sqrt (t2.metrics.mse : ℝ) := by
  subst hcfg
  rw [train_outcome_independent_of_fs backend fs1 fs2 cfg1] at h1
  rw [h1] at h2
  have heq : t1 = t2 := Except.ok.inj h2
  rw [heq]
  exact ⟨rfl, rfl⟩

theorem dedupKeepFirst_sublist {α : Type} [DecidableEq α] (seen l : List α) :
    (dedupKeepFirst seen l).Sublist l := by
  induction l generalizing seen with
  | nil => exact List.Sublist.refl []
  | cons r rest ih =>
    unfold dedupKeepFirst
    by_cases h : r ∈ seen
    · simp only [h, if_true]
      exact (ih seen).cons r
    · simp only [h, if_false]
      exact (ih (r :: seen)).cons₂ r

theorem dropnaSubset_rows (df : DataFrame) (c : String) (df1 : DataFrame)
    (hok : dropnaSubset df c = .ok df1) :
    df1.rows = df.rows.filter (fun r => !(rowCell r c).isNA) := by
  unfold dropnaSubset at hok
  split_ifs at hok
  have h := Except.ok.inj hok
  rw [← h]

theorem load_dataset_rows (df : DataFrame) (target : String) (df1 : DataFrame)
    (hok : load_dataset df target = .ok df1) :
    df1.rows = dedupKeepFirst []
      (df.rows.filter (fun r => !(rowCell r target).isNA)) := by
  unfold load_dataset at hok
  cases hd : dropnaSubset df target with
  | error e =>
    rw [hd] at hok
    exact Except.noConfusion (show Except.error e = Except.ok df1 from hok)
  | ok dfa =>
    rw [hd] at hok
    have h2 := Except.ok.inj
      (show Except.ok { dfa with rows := dedupKeepFirst [] dfa.rows } = Except.ok df1 from hok)
    rw [← h2]
    rw [dropnaSubset_rows df target dfa hd]

/-- Every row of a loaded dataset has a present target value. -/
theorem load_dataset_target_present (df : DataFrame) (target : String) (df1 : DataFrame)
    (hok : load_dataset df target = .ok df1) :
    ∀ r ∈ df1.rows, (rowCell r target).isNA = false := by
  intro r hr
  rw [load_dataset_rows df target df1 hok] at hr
  have hfil := (dedupKeepFirst_sublist [] _).mem hr
  simpa using (List.mem_filter.mp hfil).2

theorem shuffleRows_subset {α : Type} (seed : ℕ) (l : List α) :
    ∀ x ∈ shuffleRows seed l, x ∈ l := by
  intro x hx
  unfold shuffleRows at hx
  rcases List.mem_filterMap.mp hx with ⟨i, _, hget⟩
  exact List.get?_mem hget

theorem train_test_split_subset {α : Type} (seed : ℕ) (test_size : ℚ) (l : List α) :
    ∀ x, (x ∈ (train_test_split seed test_size l).1 ∨
          x ∈ (train_test_split seed test_size l).2) → x ∈ l := by
  intro x hx
  unfold train_test_split at hx
  rcases hx with h | h
  · exact shuffleRows_subset seed l x (List.drop_subset _ _ h)
  · exact shuffleRows_subset seed l x (List.take_subset _ _ h)

/-- Claim C5: rows with a missing target are excluded by `load_dataset`
before the feature/target split, so every pair in the held-in and
held-out sets of `train_gradient_boosting` carries a present target
value and stems from a cleaned dataset row. -/
theorem C5_no_missing_target_in_split (cfg : TrainingConfig)
    (tr te : List (Row × PVal))
    (hok : trainingSplit cfg = .ok (tr, te)) :
    ∀ p ∈ tr ++ te, (p.2).isNA = false := by
  intro p hp
  unfold trainingSplit at hok
  cases hd : load_dataset cfg.data cfg.target_column with
  | error e =>
    rw [hd] at hok
    exact Except.noConfusion (show Except.error e = Except.ok (tr, te) from hok)
  | ok df1 =>
    rw [hd] at hok
    have h2 := Except.ok.inj (show Except.ok
      (train_test_split cfg.random_state cfg.test_size
        (featureTargetPairs df1 cfg.target_column)) = Except.ok (tr, te) from hok)
    have hmem : p ∈ featureTargetPairs df1 cfg.target_column := by
      apply train_test_split_subset cfg.random_state cfg.test_size _ p
      rw [List.mem_append] at hp
      rcases hp with h | h
      · exact Or.inl (by rw [h2]; exact h)
      · exact Or.inr (by rw [h2]; exact h)
    unfold featureTargetPairs at hmem
    rcases List.mem_map.mp hmem with ⟨r, hr, hrp⟩
    have := load_dataset_target_present cfg.data cfg.target_column df1 hd r hr
    rw [← hrp]
    exact this

/-- Claim C9: a training run that fails anywhere before the persist
step leaves the artifact store untouched: in the embedding the
`joblib.dump` insertion happens only in the success branch, after
loading, fitting, predicting and metric computation have all
succeeded. -/
theorem C9_no_artifact_on_failure (backend : Backend) (fs : FileSystem)
    (cfg : TrainingConfig) (e : PyErr)
    (herr : (train_gradient_boosting backend fs cfg).2 = .error e) :
    (train_gradient_boosting backend fs cfg).1 = fs ∧
    ∀ path, dictLookup (train_gradient_boosting backend fs cfg).1 path =
      dictLookup fs path := by
  unfold train_gradient_boosting at herr ⊢
  cases h : trainCore backend cfg with
  | error e2 => simp [h]
  | ok x =>
    rw [h] at herr
    obtain ⟨p, m, f⟩ := x
    cases hm : cfg.model_output_path with
    | none =>
      rw [hm] at herr
      exact Except.noConfusion (show Except.ok (⟨p, m, f, none⟩ : TrainingResult)
        = Except.error e from herr)
    | some path =>
      rw [hm] at herr
      exact Except.noConfusion (show Except.ok (⟨p, m, f, some path⟩ : TrainingResult)
        = Except.error e from herr)

/-- Claim C6: persisting a fitted pipeline with `joblib.dump` and
loading it back with `load_trained_pipeline` yields a pipeline whose
prediction on any feature row is identical to the in-memory pipeline's
prediction. -/
theorem C6_persistence_roundtrip (fs : FileSystem) (path : String)
    (p p2 : PipelineFun) (row : Row)
    (hload : load_trained_pipeline (joblibDump fs path p) path = .ok p2) :
    predict_price p2 row = predict_price p row := by
  unfold load_trained_pipeline joblibDump at hload
  rw [dictLookup_dictInsert_self] at hload
  have hp := Except.ok.inj (show Except.ok p = Except.ok p2 from hload)
  rw [← hp]

/-! ### Concrete training scenario used by the witnesses -/

/-- A three-row frame with one missing target value. -/
def sampleFrame : DataFrame :=
  DataFrame.mk ["Price", "Rooms"]
    [("Price", Dtype.numeric), ("Rooms", Dtype.numeric)]
    [[("Price", PVal.floatV 10), ("Rooms", PVal.intV 1)],
     [("Price", PVal.floatV 20), ("Rooms", PVal.intV 2)],
     [("Price", PVal.nanV), ("Rooms", PVal.intV 3)]]

/-- A training configuration over `sampleFrame`, no persistence. -/
def sampleCfg : TrainingConfig :=
  ⟨sampleFrame, "Price", 1 / 2, 42, none, true, none⟩

/-- A backend that fits to the constant-zero predictor. -/
def zeroBackend : Backend := ⟨fun _ _ _ => .ok (fun _ => .ok 0)⟩

/-- Witness for C1: the sample run succeeds and the theorem yields
identical metrics across two runs from different artifact stores. -/
theorem C1_training_deterministic_witness :
    (train_gradient_boosting zeroBackend [] sampleCfg).2 =
      .ok ⟨fun _ => .ok 0, ⟨1, 10, 100⟩, ["Rooms"], none⟩ ∧
    ((⟨fun _ => .ok 0, ⟨1, 10, 100⟩, ["Rooms"], none⟩ : TrainingResult).metrics =
      (⟨fun _ => .ok 0, ⟨1, 10, 100⟩, ["Rooms"], none⟩ : TrainingResult).metrics ∧
      Real.sqrt ((((⟨fun _ => .ok 0, ⟨1, 10, 100⟩, ["Rooms"],
          none⟩ : TrainingResult).metrics.mse : ℚ)) : ℝ) =
        Real.sqrt ((((⟨fun _ => .ok 0, ⟨1, 10, 100⟩, ["Rooms"],
          none⟩ : TrainingResult).metrics.mse : ℚ)) : ℝ)) := by
  have hrun : (train_gradient_boosting zeroBackend [] sampleCfg).2 =
      .ok ⟨fun _ => .ok 0, ⟨1, 10, 100⟩, ["Rooms"], none⟩ := by
    with_unfolding_all rfl
  refine ⟨hrun, ?_⟩
  have hrun2 : (train_gradient_boosting zeroBackend
      [("other", fun _ => .ok 5)] sampleCfg).2 =
      .ok ⟨fun _ => .ok 0, ⟨1, 10, 100⟩, ["Rooms"], none⟩ := by
    with_unfolding_all rfl
  exact C1_training_deterministic zeroBackend [] [("other", fun _ => .ok 5)]
    sampleCfg sampleCfg _ _ rfl hrun hrun2

/-- Witness for C5: the sample split drops the `NaN`-target row and
every surviving pair has a present target. -/
theorem C5_no_missing_target_in_split_witness :
    trainingSplit sampleCfg =
      .ok ([([("Rooms", PVal.intV 2)], PVal.floatV 20)],
           [([("Rooms", PVal.intV 1)], PVal.floatV 10)]) ∧
    ∀ p ∈ ([([("Rooms", PVal.intV 2)], PVal.floatV 20)] : List (Row × PVal)) ++
        [([("Rooms", PVal.intV 1)], PVal.floatV 10)], (p.2).isNA = false := by
  have hs : trainingSplit sampleCfg =
      .ok ([([("Rooms", PVal.intV 2)], PVal.floatV 20)],
           [([("Rooms", PVal.intV 1)], PVal.floatV 10)]) := by
    with_unfolding_all rfl
  exact ⟨hs, C5_no_missing_target_in_split sampleCfg _ _ hs⟩

/-- Witness for C9: a run whose dataset lacks the target column fails
with a `KeyError` and leaves a pre-existing artifact store unchanged. -/
theorem C9_no_artifact_on_failure_witness :
    (train_gradient_boosting zeroBackend [("models/old.joblib", fun _ => .ok 5)]
      ⟨DataFrame.mk ["Rooms"] [("Rooms", Dtype.numeric)] [[("Rooms", PVal.intV 1)]],
        "Price", 1 / 5, 42, some "models/new.joblib", true, none⟩).2 =
      .error PyErr.keyError ∧
    (train_gradient_boosting zeroBackend [("models/old.joblib", fun _ => .ok 5)]
      ⟨DataFrame.mk ["Rooms"] [("Rooms", Dtype.numeric)] [[("Rooms", PVal.intV 1)]],
        "Price", 1 / 5, 42, some "models/new.joblib", true, none⟩).1 =
      [("models/old.joblib", fun _ => .ok 5)] := by
  have herr : (train_gradient_boosting zeroBackend
      [("models/old.joblib", fun _ => .ok 5)]
      ⟨DataFrame.mk ["Rooms"] [("Rooms", Dtype.numeric)] [[("Rooms", PVal.intV 1)]],
        "Price", 1 / 5, 42, some "models/new.joblib", true, none⟩).2 =
      .error PyErr.keyError := by
    with_unfolding_all rfl
  exact ⟨herr, (C9_no_artifact_on_failure zeroBackend _ _ PyErr.keyError herr).1⟩

/-- Witness for C6: dump then load returns the stored pipeline and the
predictions agree. -/
theorem C6_persistence_roundtrip_witness :
    load_trained_pipeline (joblibDump [] "models/m.joblib" (fun _ => .ok 7))
      "models/m.joblib" = .ok (fun _ => .ok 7) ∧
    predict_price (fun _ => .ok 7) [("Rooms", PVal.intV 3)] =
      predict_price (fun _ => .ok 7) [("Rooms", PVal.intV 3)] := by
  have hload : load_trained_pipeline
      (joblibDump [] "models/m.joblib" (fun _ => .ok 7)) "models/m.joblib" =
      .ok (fun _ => .ok 7) := by
    with_unfolding_all rfl
  exact ⟨hload, C6_persistence_roundtrip [] "models/m.joblib" _ _
    [("Rooms", PVal.intV 3)] hload⟩

/-! ### The preprocessor and the one-hot encoder (`_build_preprocessor`) -/

/-- `SimpleImputer` strategies used by the pipeline. -/
inductive ImputeStrategy where
  | median
  | most_frequent
deriving DecidableEq, Repr

/-- `OneHotEncoder(handle_unknown=..., sparse_output=...)` settings. -/
structure OneHotEncoderCfg where
  handle_unknown_ignore : Bool
  sparse_output : Bool
deriving DecidableEq, Repr

/-- The numeric chain: an imputer followed by `StandardScaler`. -/
structure NumericTransformer where
  imputer : ImputeStrategy
  scaler : Bool
deriving DecidableEq, Repr

/-- The categorical chain: an imputer followed by one-hot encoding. -/
structure CategoricalTransformer where
  imputer : ImputeStrategy
  onehot : OneHotEncoderCfg
deriving DecidableEq, Repr

/-- The `ColumnTransformer` assembled by `_build_preprocessor`: the two
optional per-type chains with their column lists. -/
structure Preprocessor where
  numeric : Option (NumericTransformer × List String)
  categorical : Option (CategoricalTransformer × List String)
deriving DecidableEq, Repr

/-- Embedding of `melb_price_model._build_preprocessor`: a numeric
chain (median imputation, scaling) when numeric features exist, a
categorical chain (most-frequent imputation, one-hot with
`handle_unknown="ignore"` and dense output) when categorical features
exist, and a `ValueError` when the transformer list stays empty. -/
def build_preprocessor (numeric_features categorical_features : List String) :
    Except PyErr Preprocessor :=
  if numeric_features.isEmpty ∧ categorical_features.isEmpty then
    .error PyErr.valueError
  else
    .ok ⟨(if numeric_features.isEmpty then none
          else some (⟨ImputeStrategy.median, true⟩, numeric_features)),
         (if categorical_features.isEmpty then none
          else some (⟨ImputeStrategy.most_frequent, ⟨true, false⟩⟩,
            categorical_features))⟩

/-- `OneHotEncoder.transform` on one cell, given the categories learned
at fit time: the indicator vector of the matching category; an unknown
value yields the all-zero vector under `handle_unknown="ignore"` and
raises otherwise. -/
def oneHotTransform (cfg : OneHotEncoderCfg) (categories : List PVal) (v : PVal) :
    Except PyErr (List ℚ) :=
  if v ∈ categories then .ok (categories.map (fun c => if c = v then 1 else 0))
  else if cfg.handle_unknown_ignore then .ok (categories.map (fun _ => 0))
  else .error PyErr.valueError

/-- Claim C7: the preprocessor built by `_build_preprocessor`
configures its one-hot stage with `handle_unknown="ignore"`, so
encoding a category value unseen at fit time raises no error and
contributes the all-zero indicator vector for that column. -/
theorem C7_unknown_category_ignored (numeric_features categorical_features : List String)
    (P : Preprocessor) (cats : List PVal) (v : PVal)
    (hne : categorical_features ≠ [])
    (hbuild : build_preprocessor numeric_features categorical_features = .ok P)
    (hv : v ∉ cats) :
    ∃ ct, P.categorical = some (ct, categorical_features) ∧
      ct.onehot.handle_unknown_ignore = true ∧
      oneHotTransform ct.onehot cats v = .ok (cats.map (fun _ => 0)) := by
  unfold build_preprocessor at hbuild
  have hcne : categorical_features.isEmpty = false := by
    simpa using hne
  rw [hcne] at hbuild
  simp only [Bool.false_eq_true, and_false, if_false] at hbuild
  have hP := Except.ok.inj hbuild
  refine ⟨⟨ImputeStrategy.most_frequent, ⟨true, false⟩⟩, ?_, rfl, ?_⟩
  · rw [← hP]
  · unfold oneHotTransform
    simp [hv]

/-- Witness for C7: a one-category encoder meets an unseen suburb. -/
theorem C7_unknown_category_ignored_witness :
    (["Suburb"] : List String) ≠ [] ∧
    build_preprocessor ["Rooms"] ["Suburb"] =
      .ok ⟨some (⟨ImputeStrategy.median, true⟩, ["Rooms"]),
           some (⟨ImputeStrategy.most_frequent, ⟨true, false⟩⟩, ["Suburb"])⟩ ∧
    PVal.strV "Z" ∉ [PVal.strV "A", PVal.strV "B"] ∧
    (∃ ct, (Preprocessor.mk (some (⟨ImputeStrategy.median, true⟩, ["Rooms"]))
        (some (⟨ImputeStrategy.most_frequent, ⟨true, false⟩⟩,
          ["Suburb"]))).categorical = some (ct, ["Suburb"]) ∧
      ct.onehot.handle_unknown_ignore = true ∧
      oneHotTransform ct.onehot [PVal.strV "A", PVal.strV "B"] (PVal.strV "Z") =
        .ok [0, 0]) := by
  refine ⟨by decide, by decide, by decide, ?_⟩
  have h := C7_unknown_category_ignored ["Rooms"] ["Suburb"]
    ⟨some (⟨ImputeStrategy.median, true⟩, ["Rooms"]),
     some (⟨ImputeStrategy.most_frequent, ⟨true, false⟩⟩, ["Suburb"])⟩
    [PVal.strV "A", PVal.strV "B"] (PVal.strV "Z")
    (by decide) (by decide) (by decide)
  simpa using h

/-! ### Override parsing (`parse_custom_features`, `maybe_cast_value`) -/

/-- Decimal value of a digit string. -/
def digitsToNat (s : String) : ℕ :=
  s.foldl (fun acc ch => 10 * acc + (ch.toNat - 48)) 0

/-- Split a leading `+`/`-` sign off a trimmed literal. -/
def splitSign (t : String) : Bool × String :=
  if t.startsWith "-" then (true, t.drop 1)
  else if t.startsWith "+" then (false, t.drop 1)
  else (false, t)

/-- Python `int(s)` on a string: surrounding whitespace and an optional
sign around decimal digits (numeric-separator underscores are not
modelled). -/
def pyIntOfString (s : String) : Option ℤ :=
  let (neg, digits) := splitSign s.trim
  if digits.length > 0 ∧ digits.all (fun ch => ch.isDigit) then
    some (if neg then -(digitsToNat digits : ℤ) else (digitsToNat digits : ℤ))
  else none

/-- The exact value of a digit mantissa `ip.fp`. -/
def mantissaVal (ip fp : String) : ℚ :=
  (digitsToNat ip : ℚ) + (digitsToNat fp : ℚ) / ((10 : ℚ) ^ fp.length)

/-- Python `float(s)` on a string, by exact rational value: surrounding
whitespace, an optional sign, a digit mantissa with an optional decimal
point, and an optional decimal exponent (`inf`/`nan` literals, binary
rounding and numeric-separator underscores are not modelled). -/
def pyFloatOfString (s : String) : Option ℚ :=
  let (neg, body) := splitSign s.trim
  let lowered := body.map Char.toLower
  let withExp :=
    match lowered.splitOn "e" with
    | [m] => some (m, (false, "0"))
    | [m, ex] =>
      let (eneg, edigits) := splitSign ex
      if edigits.length > 0 ∧ edigits.all (fun ch => ch.isDigit) then
        some (m, (eneg, edigits))
      else none
    | _ => none
  match withExp with
  | none => none
  | some (m, (eneg, edigits)) =>
    let mval : Option ℚ :=
      match m.splitOn "." with
      | [ip] =>
        if ip.length > 0 ∧ ip.all (fun ch => ch.isDigit) then
          some (digitsToNat ip : ℚ)
        else none
      | [ip, fp] =>
        if (ip.length + fp.length > 0) ∧ ip.all (fun ch => ch.isDigit) ∧
            fp.all (fun ch => ch.isDigit) then
          some (mantissaVal ip fp)
        else none
      | _ => none
    match mval with
    | none => none
    | some q =>
      let scaled :=
        if eneg then q / ((10 : ℚ) ^ digitsToNat edigits)
        else q * ((10 : ℚ) ^ digitsToNat edigits)
      some (if neg then -scaled else scaled)

/-- Embedding of `features.maybe_cast_value`: try `int`, then `float`,
otherwise keep the string. -/
def maybe_cast_value (value : String) : PVal :=
  match pyIntOfString value with
  | some n => PVal.intV n
  | none =>
    match pyFloatOfString value with
    | some q => PVal.floatV q
    | none => PVal.strV value

/-- Embedding of `features.parse_custom_features`: each pair must
contain `=`; it is split at the first `=`, both sides are stripped, an
empty key raises, and the value is cast by `maybe_cast_value`. -/
def parse_custom_features (feature_pairs : List String) :
    Except PyErr (List (String × PVal)) :=
  feature_pairs.foldlM
    (fun overrides pair =>
      if !(pair.contains ('=')) then .error PyErr.valueError
      else
        match pair.splitOn "=" with
        | [] => .error PyErr.valueError
        | key :: rest =>
          let key := key.trim
          let value := (String.intercalate "=" rest).trim
          if key.isEmpty then .error PyErr.valueError
          else .ok (dictInsert overrides key (maybe_cast_value value)))
    []

/-- Claim C8: `maybe_cast_value` attempts integer conversion first,
then floating-point conversion, and keeps the string only when both
fail; the override `Rooms=5` applied over defaults `{Rooms: 3.5}`
yields the integer `5`, not the string `"5"`. -/
theorem C8_override_casting (s : String) :
    (∀ n, pyIntOfString s = some n → maybe_cast_value s = PVal.intV n) ∧
    (pyIntOfString s = none →
      ∀ q, pyFloatOfString s = some q → maybe_cast_value s = PVal.floatV q) ∧
    (pyIntOfString s = none → pyFloatOfString s = none →
      maybe_cast_value s = PVal.strV s) ∧
    (parse_custom_features ["Rooms=5"] = .ok [("Rooms", PVal.intV 5)] ∧
      apply_feature_overrides [("Rooms", PVal.floatV (7 / 2))]
        [("Rooms", PVal.intV 5)] = [("Rooms", PVal.intV 5)]) := by
  refine ⟨?_, ?_, ?_, ?_, ?_⟩
  · intro n hn
    unfold maybe_cast_value
    rw [hn]
  · intro hi q hq
    unfold maybe_cast_value
    rw [hi, hq]
  · intro hi hf
    unfold maybe_cast_value
    rw [hi, hf]
  · with_unfolding_all decide
  · with_unfolding_all decide

/-- Witness for C8 at the literals `"5"`, `"3.5"` and `"h"`: the
integer branch wins for `"5"`, the float branch for `"3.5"`, and the
string survives for `"h"`. -/
theorem C8_override_casting_witness :
    maybe_cast_value "5" = PVal.intV 5 ∧
    maybe_cast_value "3.5" = PVal.floatV (7 / 2) ∧
    maybe_cast_value "h" = PVal.strV "h" := by
  refine ⟨(C8_override_casting "5").1 5 (by with_unfolding_all decide), ?_, ?_⟩
  · exact (C8_override_casting "3.5").2.1 (by with_unfolding_all decide) (7 / 2)
      (by with_unfolding_all decide)
  · exact (C8_override_casting "h").2.2.1 (by with_unfolding_all decide)
      (by with_unfolding_all decide)

/-! ### Mutation discipline of `apply_feature_overrides` (claim C10)

To talk about mutation at all, dictionaries are placed in a small
object store indexed by identity.  `apply_feature_overrides` runs
`combined = base_features.copy()` — allocating a fresh object — and
then calls `combined.update(...)`, a mutation of that fresh object
only; the store-level embedding makes both steps explicit so that the
theorem can state that the `base_features` object is left untouched
(the service's cached `self.defaults` is exactly such a shared base
object). -/

/-- An object store of Python dict objects, keyed by identity. -/
abbrev DictStore := List (ℕ × List (String × PVal))

/-- Dereference an object id (absent ids read as an empty dict). -/
def storeGet (σ : DictStore) (oid : ℕ) : List (String × PVal) :=
  (dictLookup σ oid).getD []

/-- Overwrite the dict held by an object id. -/
def storeSet (σ : DictStore) (oid : ℕ) (d : List (String × PVal)) : DictStore :=
  σ.map (fun p => if p.1 = oid then (oid, d) else p)

/-- An id not yet used by the store. -/
def freshOid (σ : DictStore) : ℕ :=
  (σ.map Prod.fst).foldl max 0 + 1

/-- `apply_feature_overrides` at the object level: read both argument
objects, allocate `combined` as a copy of the base, mutate only the
fresh `combined` object with the filtered update, and return its id. -/
def apply_feature_overrides_obj (σ : DictStore) (baseId ovrId : ℕ) :
    DictStore × ℕ :=
  let base := storeGet σ baseId
  let ovr := storeGet σ ovrId
  let cid := freshOid σ
  let σ1 := (cid, base) :: σ
  let σ2 := storeSet σ1 cid
    (dictUpdate base (ovr.filter (fun p => !(p.2 == PVal.noneV))))
  (σ2, cid)

theorem storeGet_storeSet_ne (σ : DictStore) (oid oid2 : ℕ)
    (d : List (String × PVal)) (hne : oid ≠ oid2) :
    storeGet (storeSet σ oid2 d) oid = storeGet σ oid := by
  unfold storeGet storeSet
  induction σ with
  | nil => rfl
  | cons p σ ih =>
    by_cases hp : p.1 = oid2
    · have hpo : oid2 ≠ oid := Ne.symm hne
      simp [dictLookup, hp, hpo, ih]
    · by_cases hpo : p.1 = oid
      · simp [dictLookup, hp, hpo, hne]
      · simp [dictLookup, hp, hpo, ih]

theorem storeGet_storeSet_head (σ : DictStore) (oid : ℕ)
    (d0 d : List (String × PVal)) :
    storeGet (storeSet ((oid, d0) :: σ) oid d) oid = d := by
  unfold storeGet storeSet
  simp [dictLookup]

/-- The fresh id is strictly above every id in the store. -/
theorem freshOid_not_mem (σ : DictStore) (oid : ℕ) (h : oid ∈ σ.map Prod.fst) :
    oid ≠ freshOid σ := by
  unfold freshOid
  have := le_foldl_max (σ.map Prod.fst) oid 0 h
  omega

/-- Claim C10: running `apply_feature_overrides` at the object level
neither mutates the `base_features` object nor any other stored
object, and the returned fresh object holds exactly the value computed
by the pure `apply_feature_overrides`. -/
theorem C10_overrides_do_not_mutate_base (σ : DictStore) (baseId ovrId : ℕ)
    (hbase : baseId ∈ σ.map Prod.fst) :
    storeGet (apply_feature_overrides_obj σ baseId ovrId).1 baseId =
      storeGet σ baseId ∧
    (∀ oid ∈ σ.map Prod.fst,
      storeGet (apply_feature_overrides_obj σ baseId ovrId).1 oid =
        storeGet σ oid) ∧
    storeGet (apply_feature_overrides_obj σ baseId ovrId).1
        (apply_feature_overrides_obj σ baseId ovrId).2 =
      apply_feature_overrides (storeGet σ baseId) (storeGet σ ovrId) := by
  have hstable : ∀ oid ∈ σ.map Prod.fst,
      storeGet (apply_feature_overrides_obj σ baseId ovrId).1 oid =
        storeGet σ oid := by
    intro oid hoid
    have hne := freshOid_not_mem σ oid hoid
    show storeGet (storeSet ((freshOid σ, storeGet σ baseId) :: σ) (freshOid σ) _) oid =
      storeGet σ oid
    rw [storeGet_storeSet_ne _ _ _ _ hne]
    unfold storeGet
    simp [dictLookup, hne, Ne.symm hne]
  refine ⟨hstable baseId hbase, hstable, ?_⟩
  show storeGet (storeSet ((freshOid σ, storeGet σ baseId) :: σ) (freshOid σ) _)
      (freshOid σ) = _
  rw [storeGet_storeSet_head]
  rfl

/-- Witness for C10 at a concrete two-object store. -/
theorem C10_overrides_do_not_mutate_base_witness :
    (0 : ℕ) ∈ ([(0, [("Rooms", PVal.floatV 3)]),
      (1, [("Rooms", PVal.noneV), ("Suburb", PVal.strV "A")])] :
        DictStore).map Prod.fst ∧
    storeGet (apply_feature_overrides_obj
        [(0, [("Rooms", PVal.floatV 3)]),
         (1, [("Rooms", PVal.noneV), ("Suburb", PVal.strV "A")])] 0 1).1 0 =
      [("Rooms", PVal.floatV 3)] := by
  refine ⟨by decide, ?_⟩
  have h := (C10_overrides_do_not_mutate_base
    [(0, [("Rooms", PVal.floatV 3)]),
     (1, [("Rooms", PVal.noneV), ("Suburb", PVal.strV "A")])] 0 1 (by decide)).1
  rw [h]
  decide

end PropertyProof
